import Mathlib

/-!
Shallow embedding of the recommendation subsystem of the `musicbud` repository:
`ai/recommendation_engine.py`, `app/services/recommendation_service.py` and
`app/services/recommendation_cache.py`.

Conventions of the embedding:
* ids are `String`, interaction weights and scores are `ℚ`;
* NumPy's `-inf` masking value is modelled by `⊥` of `WithBot ℚ`;
* the external LightFM library is not part of the repository: the fitted model
  is an opaque `Nat` handle, `model.predict` and the cosine-similarity vector
  of `get_similar_items` are oracle functions passed as parameters, and
  `model.fit` is a parameter that may fail (raise) by returning `none`;
* the engine is embedded in its `LIGHTFM_AVAILABLE = True` configuration
  (the configuration in which trained models exist at all);
* python dictionaries keyed by content type are total functions
  `String → Option _`; the in-process memory cache dictionary is an
  association list in insertion order;
* exceptions of external calls (`joblib.load`, neo4j lookups, the engine call
  made by the service) are embedded as `Option`/`Except` parameters describing
  the outcome of each external call.
-/

namespace Musicbud

/-- An interaction triple `(user_id, item_id, rating)` as produced by
`RecommendationDataService` and consumed by the engine. -/
abbrev Interaction := String × String × ℚ

/-- First-seen deduplication with an accumulator of already-seen elements.
`uniqFS [] l` is the embedding of `pandas.Series.unique`, which returns the
distinct values of `l` in order of first appearance. -/
def uniqFS {α : Type} [DecidableEq α] (seen : List α) : List α → List α
  | [] => []
  | x :: xs => if x ∈ seen then uniqFS seen xs else x :: uniqFS (x :: seen) xs

/-- Embedding of `pandas` `df['col'].unique()`: distinct values in
first-seen order. -/
def uniqueFirstSeen {α : Type} [DecidableEq α] (l : List α) : List α :=
  uniqFS [] l

/-- A sparse matrix in coordinate form, as built by
`scipy.sparse.coo_matrix((ratings, (user_indices, item_indices)), shape=...)`.
`entries` is the list of `(row, col, data)` coordinates in input order. -/
structure CooMatrix where
  rows : Nat
  cols : Nat
  entries : List (Nat × Nat × ℚ)
deriving DecidableEq

/-- The materialized cell value at `(r, c)`: `scipy` sums duplicate
coordinates when the COO matrix is converted with `.tocsr()`. -/
def CooMatrix.entry (m : CooMatrix) (r c : Nat) : ℚ :=
  ((m.entries.filter fun e => e.1 = r ∧ e.2.1 = c).map fun e => e.2.2).sum

/-- Embedding of `matrix.nnz` of the CSR conversion: the number of stored coordinates
(`.tocsr()` sums duplicates but keeps explicit zeros, so this is the number
of distinct `(row, col)` pairs of the input). -/
def CooMatrix.nnz (m : CooMatrix) : Nat :=
  (uniqueFirstSeen (m.entries.map fun e => (e.1, e.2.1))).length

/-- Embedding of `matrix[r].indices` of the CSR form: the distinct column
indices stored in row `r`. -/
def CooMatrix.rowIndices (m : CooMatrix) (r : Nat) : List Nat :=
  uniqueFirstSeen ((m.entries.filter fun e => e.1 = r).map fun e => e.2.1)

/-- Column sum `matrix.sum(axis=0)` at column `c`, used by
`get_popular_items`. -/
def CooMatrix.colSum (m : CooMatrix) (c : Nat) : ℚ :=
  ((m.entries.filter fun e => e.2.1 = c).map fun e => e.2.2).sum

/-- Result of `RecommendationEngine.create_interaction_matrix`: the matrix and
the two id-to-index maps.  A map `{id: idx}` built by
`{uid: idx for idx, uid in enumerate(unique_users)}` is embedded as the list
`unique_users` itself: the index of `id` is its position in the list, and the
reverse map `{idx: iid}` is positional lookup. -/
structure MatrixBuild where
  matrix : CooMatrix
  userMap : List String
  itemMap : List String
deriving DecidableEq

/-- Embedding of `RecommendationEngine.create_interaction_matrix`
(`ai/recommendation_engine.py`, lines 51-97): empty input yields a degenerate
`csr_matrix((1, 1))` with empty maps; otherwise ids are indexed in first-seen
order and every triple contributes one COO coordinate. -/
def createInteractionMatrix (interactions : List Interaction) : MatrixBuild :=
  if interactions.isEmpty then
    ⟨⟨1, 1, []⟩, [], []⟩
  else
    let users := uniqueFirstSeen (interactions.map fun t => t.1)
    let items := uniqueFirstSeen (interactions.map fun t => t.2.1)
    let entries := interactions.map fun t =>
      (users.indexOf t.1, items.indexOf t.2.1, t.2.2)
    ⟨⟨users.length, items.length, entries⟩, users, items⟩

theorem mem_uniqFS {α : Type} [DecidableEq α] (a : α) :
    ∀ (l seen : List α), a ∈ uniqFS seen l ↔ a ∈ l ∧ a ∉ seen := by
  intro l
  induction l with
  | nil => intro seen; simp [uniqFS]
  | cons x xs ih =>
    intro seen
    by_cases hx : x ∈ seen
    · simp only [uniqFS, if_pos hx, ih]
      constructor
      · rintro ⟨h1, h2⟩
        exact ⟨List.mem_cons_of_mem _ h1, h2⟩
      · rintro ⟨h1, h2⟩
        rcases List.mem_cons.mp h1 with h | h
        · exact absurd hx (h ▸ h2)
        · exact ⟨h, h2⟩
    · simp only [uniqFS, if_neg hx, List.mem_cons, ih]
      by_cases hax : a = x
      · subst hax; simp [hx]
      · simp [hax]

theorem mem_uniqueFirstSeen {α : Type} [DecidableEq α] (a : α) (l : List α) :
    a ∈ uniqueFirstSeen l ↔ a ∈ l := by
  simp [uniqueFirstSeen, mem_uniqFS]

theorem nodup_uniqFS {α : Type} [DecidableEq α] :
    ∀ (l seen : List α), (uniqFS seen l).Nodup := by
  intro l
  induction l with
  | nil => intro seen; simp [uniqFS]
  | cons x xs ih =>
    intro seen
    by_cases hx : x ∈ seen
    · simpa [uniqFS, if_pos hx] using ih seen
    · simp only [uniqFS, if_neg hx, List.nodup_cons]
      refine ⟨fun hmem => ?_, ih (x :: seen)⟩
      exact ((mem_uniqFS x xs (x :: seen)).mp hmem).2 (List.mem_cons_self x seen)

theorem nodup_uniqueFirstSeen {α : Type} [DecidableEq α] (l : List α) :
    (uniqueFirstSeen l).Nodup :=
  nodup_uniqFS l []

theorem pairwise_indexOf_uniqFS {α : Type} [DecidableEq α] :
    ∀ (l seen : List α),
      (uniqFS seen l).Pairwise fun a b => l.indexOf a < l.indexOf b := by
  intro l
  induction l with
  | nil => intro seen; simp [uniqFS]
  | cons x xs ih =>
    intro seen
    have transfer : ∀ a b : α, a ≠ x → b ≠ x →
        xs.indexOf a < xs.indexOf b →
        (x :: xs).indexOf a < (x :: xs).indexOf b := by
      intro a b hax hbx hab
      rw [List.indexOf_cons_ne _ (Ne.symm hax), List.indexOf_cons_ne _ (Ne.symm hbx)]
      omega
    by_cases hx : x ∈ seen
    · rw [uniqFS, if_pos hx]
      refine List.Pairwise.imp_of_mem ?_ (ih seen)
      intro a b ha hb h
      have hax : a ≠ x := fun hax =>
        ((mem_uniqFS a xs seen).mp ha).2 (hax ▸ hx)
      have hbx : b ≠ x := fun hbx =>
        ((mem_uniqFS b xs seen).mp hb).2 (hbx ▸ hx)
      exact transfer a b hax hbx h
    · rw [uniqFS, if_neg hx]
      refine List.Pairwise.cons ?_ ?_
      · intro b hb
        have hbx : b ≠ x := fun hbx =>
          ((mem_uniqFS b xs (x :: seen)).mp hb).2 (by simp [hbx])
        rw [List.indexOf_cons_self, List.indexOf_cons_ne _ (Ne.symm hbx)]
        omega
      · refine List.Pairwise.imp_of_mem ?_ (ih (x :: seen))
        intro a b ha hb h
        have hax : a ≠ x := fun hax =>
          ((mem_uniqFS a xs (x :: seen)).mp ha).2 (by simp [hax])
        have hbx : b ≠ x := fun hbx =>
          ((mem_uniqFS b xs (x :: seen)).mp hb).2 (by simp [hbx])
        exact transfer a b hax hbx h

theorem pairwise_indexOf_uniqueFirstSeen {α : Type} [DecidableEq α]
    (l : List α) :
    (uniqueFirstSeen l).Pairwise fun a b => l.indexOf a < l.indexOf b :=
  pairwise_indexOf_uniqFS l []

theorem indexOf_uniqueFirstSeen_inj {α : Type} [DecidableEq α] {l : List α}
    {a b : α} (ha : a ∈ l) (hb : b ∈ l) :
    (uniqueFirstSeen l).indexOf a = (uniqueFirstSeen l).indexOf b ↔ a = b :=
  List.indexOf_inj ((mem_uniqueFirstSeen a l).mpr ha)
    ((mem_uniqueFirstSeen b l).mpr hb)

/-- C4: `create_interaction_matrix` returns a matrix whose shape is
`(|user_map|, |item_map|)`, with the maps duplicate-free, covering exactly the
user and item ids occurring in the input, and listed in first-seen order
(strictly increasing position of first occurrence); the empty input yields a
degenerate 1×1 matrix and two empty maps. -/
theorem createInteractionMatrix_shape_and_maps (interactions : List Interaction) :
    (interactions = [] →
      createInteractionMatrix interactions = ⟨⟨1, 1, []⟩, [], []⟩) ∧
    (interactions ≠ [] →
      (createInteractionMatrix interactions).matrix.rows =
          (createInteractionMatrix interactions).userMap.length ∧
      (createInteractionMatrix interactions).matrix.cols =
          (createInteractionMatrix interactions).itemMap.length ∧
      (createInteractionMatrix interactions).userMap.Nodup ∧
      (createInteractionMatrix interactions).itemMap.Nodup ∧
      (∀ u, u ∈ (createInteractionMatrix interactions).userMap ↔
          u ∈ interactions.map fun t => t.1) ∧
      (∀ i, i ∈ (createInteractionMatrix interactions).itemMap ↔
          i ∈ interactions.map fun t => t.2.1) ∧
      (createInteractionMatrix interactions).userMap.Pairwise
        (fun a b => (interactions.map fun t => t.1).indexOf a <
          (interactions.map fun t => t.1).indexOf b) ∧
      (createInteractionMatrix interactions).itemMap.Pairwise
        (fun a b => (interactions.map fun t => t.2.1).indexOf a <
          (interactions.map fun t => t.2.1).indexOf b)) := by
  constructor
  · intro h
    subst h
    rfl
  · intro h
    have hne : interactions.isEmpty = false := by
      simpa [List.isEmpty_iff] using h
    simp only [createInteractionMatrix, hne, Bool.false_eq_true, if_false]
    refine ⟨trivial, trivial, nodup_uniqueFirstSeen _, nodup_uniqueFirstSeen _,
      fun u => mem_uniqueFirstSeen _ _, fun i => mem_uniqueFirstSeen _ _,
      pairwise_indexOf_uniqueFirstSeen _, pairwise_indexOf_uniqueFirstSeen _⟩

/-- Concrete input used to witness the matrix-construction claims. -/
def sampleInteractions : List Interaction :=
  [("u1", "i1", 5), ("u1", "i2", 3), ("u2", "i1", 5), ("u1", "i1", 2)]

theorem createInteractionMatrix_shape_and_maps_witness :
    sampleInteractions ≠ [] ∧
    ((createInteractionMatrix sampleInteractions).matrix.rows =
        (createInteractionMatrix sampleInteractions).userMap.length ∧
      (createInteractionMatrix sampleInteractions).matrix.cols =
        (createInteractionMatrix sampleInteractions).itemMap.length ∧
      (createInteractionMatrix sampleInteractions).userMap.Nodup ∧
      ("u2" ∈ (createInteractionMatrix sampleInteractions).userMap ↔
        "u2" ∈ sampleInteractions.map fun t => t.1)) :=
  ⟨by decide,
    ((createInteractionMatrix_shape_and_maps sampleInteractions).2 (by decide)).1,
    ((createInteractionMatrix_shape_and_maps sampleInteractions).2 (by decide)).2.1,
    ((createInteractionMatrix_shape_and_maps sampleInteractions).2 (by decide)).2.2.1,
    ((createInteractionMatrix_shape_and_maps sampleInteractions).2 (by decide)).2.2.2.2.1 "u2"⟩

theorem filter_map_map {α β γ : Type} (f : α → β) (g : β → γ) (g' : α → γ)
    (p : β → Bool) (q : α → Bool) (l : List α)
    (hp : ∀ a ∈ l, p (f a) = q a) (hg : ∀ a, g (f a) = g' a) :
    (List.filter p (List.map f l)).map g = (List.filter q l).map g' := by
  induction l with
  | nil => rfl
  | cons x xs ih =>
    have hx := hp x (List.mem_cons_self x xs)
    have ihx := ih fun a ha => hp a (List.mem_cons_of_mem _ ha)
    simp only [List.map_cons, List.filter_cons, hx]
    by_cases hq : q x
    · simp [hq, ihx, hg]
    · simp [hq, ihx]

/-- C8: in the built matrix, the cell of a user/item pair occurring in the
input is the sum of the weights of all input triples with that pair: duplicate
coordinates are combined by summation when the sparse matrix is
materialized. -/
theorem createInteractionMatrix_entry_eq_sum
    (interactions : List Interaction) (u i : String) (w : ℚ)
    (h : (u, i, w) ∈ interactions) :
    (createInteractionMatrix interactions).matrix.entry
        ((createInteractionMatrix interactions).userMap.indexOf u)
        ((createInteractionMatrix interactions).itemMap.indexOf i) =
      ((interactions.filter fun t => t.1 = u ∧ t.2.1 = i).map
        fun t => t.2.2).sum := by
  have hne : interactions.isEmpty = false := by
    simpa [List.isEmpty_iff] using List.ne_nil_of_mem h
  have hu : u ∈ interactions.map fun t => t.1 :=
    List.mem_map.mpr ⟨(u, i, w), h, rfl⟩
  have hi : i ∈ interactions.map fun t => t.2.1 :=
    List.mem_map.mpr ⟨(u, i, w), h, rfl⟩
  simp only [createInteractionMatrix, hne, Bool.false_eq_true, if_false,
    CooMatrix.entry]
  congr 1
  refine filter_map_map _ _ _ _ _ interactions ?_ fun a => rfl
  intro t ht
  have ht1 : t.1 ∈ interactions.map fun s => s.1 :=
    List.mem_map.mpr ⟨t, ht, rfl⟩
  have ht2 : t.2.1 ∈ interactions.map fun s => s.2.1 :=
    List.mem_map.mpr ⟨t, ht, rfl⟩
  exact decide_eq_decide.mpr
    (and_congr (indexOf_uniqueFirstSeen_inj ht1 hu)
      (indexOf_uniqueFirstSeen_inj ht2 hi))

theorem createInteractionMatrix_entry_eq_sum_witness :
    ("u1", "i1", (5 : ℚ)) ∈ sampleInteractions ∧
    (createInteractionMatrix sampleInteractions).matrix.entry
        ((createInteractionMatrix sampleInteractions).userMap.indexOf "u1")
        ((createInteractionMatrix sampleInteractions).itemMap.indexOf "i1") =
      ((sampleInteractions.filter fun t => t.1 = "u1" ∧ t.2.1 = "i1").map
        fun t => t.2.2).sum :=
  ⟨by decide,
    createInteractionMatrix_entry_eq_sum sampleInteractions "u1" "i1" 5 (by decide)⟩

/-- The per-content-type trained state of `RecommendationEngine`
(`self.models`, `self.interaction_matrices`, `self.user_id_mappings`,
`self.item_id_mappings`), each a dictionary keyed by content type.  The
fitted LightFM model object is opaque to the repository and embedded as a
`Nat` handle. -/
structure EngineState where
  models : String → Option Nat
  interactionMatrices : String → Option CooMatrix
  userIdMappings : String → Option (List String)
  itemIdMappings : String → Option (List String)

/-- Dictionary update `d[k] = v` for a content-type-keyed dictionary. -/
def updateMap {α : Type} (f : String → Option α) (k : String) (v : α) :
    String → Option α :=
  fun s => if s = k then some v else f s

/-- Score values as used after masking: NumPy's `-inf` is `⊥`. -/
abbrev Score := WithBot ℚ

/-- Insert index `i` into a list sorted by strictly descending `score`,
after all already-present indices of greater-or-equal score. -/
def insertDescend {β : Type} [LinearOrder β] (score : Nat → β) (i : Nat) :
    List Nat → List Nat
  | [] => [i]
  | j :: js =>
    if score j < score i then i :: j :: js else j :: insertDescend score i js

/-- Embedding of `np.argsort(-scores)` over `np.arange(n)`: the indices
`0, …, n-1` ordered by descending score.  NumPy's default sort leaves the
order of ties unspecified; this embedding resolves ties by first-seen index,
the deterministic order the spec pins down. -/
def argsortDescend {β : Type} [LinearOrder β] (score : Nat → β) (n : Nat) :
    List Nat :=
  (List.range n).foldl (fun acc i => insertDescend score i acc) []

/-- Embedding of `RecommendationEngine.get_popular_items`
(`ai/recommendation_engine.py`, lines 224-273) in the trained-snapshot mode:
items ranked by column sum of interaction weight. -/
def getPopularItems (st : EngineState) (ct : String) (nItems : Nat) :
    List (String × ℚ) :=
  match st.interactionMatrices ct with
  | none => []
  | some m =>
    let itemMap := (st.itemIdMappings ct).getD []
    let pop := fun c => m.colSum c
    let top := (argsortDescend pop m.cols).take nItems
    top.map fun c => (itemMap.getD c "", pop c)

/-- Embedding of `RecommendationEngine.get_recommendations`
(`ai/recommendation_engine.py`, lines 153-222).  `predict` is the oracle for
`model.predict(user_idx, item_indices)` of the external LightFM model (model
handle, user index, item index ↦ score).  When no model is stored the source
attempts a disk load and otherwise falls back to popularity; the embedding
takes the fallback directly (the load path is settled separately by
`loadModel`).  Known items are masked to `⊥` (−∞) before ranking and the
final comprehension keeps only scores strictly above −∞. -/
def getRecommendations (predict : Nat → Nat → Nat → ℚ) (st : EngineState)
    (userId ct : String) (nRecs : Nat) (filterKnown : Bool) :
    List (String × Score) :=
  match st.models ct with
  | none => (getPopularItems st ct nRecs).map fun p => (p.1, (p.2 : Score))
  | some model =>
    let userMap := (st.userIdMappings ct).getD []
    let itemMap := (st.itemIdMappings ct).getD []
    if userId ∈ userMap then
      let userIdx := userMap.indexOf userId
      let nItems := itemMap.length
      let baseScores : Nat → Score := fun idx => ((predict model userIdx idx : ℚ) : Score)
      let scores : Nat → Score :=
        match filterKnown, st.interactionMatrices ct with
        | true, some m =>
            fun idx => if idx ∈ m.rowIndices userIdx then ⊥ else baseScores idx
        | _, _ => baseScores
      let top := (argsortDescend scores nItems).take nRecs
      (top.filter fun idx => ⊥ < scores idx).map
        fun idx => (itemMap.getD idx "", scores idx)
    else
      (getPopularItems st ct nRecs).map fun p => (p.1, (p.2 : Score))

theorem mem_insertDescend {β : Type} [LinearOrder β] (score : Nat → β)
    (i k : Nat) : ∀ l : List Nat,
    k ∈ insertDescend score i l ↔ k = i ∨ k ∈ l := by
  intro l
  induction l with
  | nil => simp [insertDescend]
  | cons j js ih =>
    simp only [insertDescend]
    split
    · simp [List.mem_cons]
    · simp only [List.mem_cons, ih]
      tauto

theorem mem_foldl_insertDescend {β : Type} [LinearOrder β] (score : Nat → β) :
    ∀ (l acc : List Nat) (k : Nat),
      k ∈ l.foldl (fun a i => insertDescend score i a) acc →
      k ∈ acc ∨ k ∈ l := by
  intro l
  induction l with
  | nil => intro acc k h; exact Or.inl h
  | cons x xs ih =>
    intro acc k h
    rcases ih _ k h with h' | h'
    · rcases (mem_insertDescend score x k acc).mp h' with rfl | h''
      · exact Or.inr (List.mem_cons_self _ _)
      · exact Or.inl h''
    · exact Or.inr (List.mem_cons_of_mem _ h')

theorem mem_argsortDescend {β : Type} [LinearOrder β] (score : Nat → β)
    (n k : Nat) (h : k ∈ argsortDescend score n) : k < n := by
  rcases mem_foldl_insertDescend score (List.range n) [] k h with h' | h'
  · simp at h'
  · exact List.mem_range.mp h'

theorem mem_rowIndices_iff (m : CooMatrix) (r k : Nat) :
    k ∈ m.rowIndices r ↔ ∃ e ∈ m.entries, e.1 = r ∧ e.2.1 = k := by
  simp only [CooMatrix.rowIndices, mem_uniqueFirstSeen, List.mem_map,
    List.mem_filter, decide_eq_true_eq]
  constructor
  · rintro ⟨e, ⟨he, hr⟩, hk⟩
    exact ⟨e, he, hr, hk⟩
  · rintro ⟨e, he, hr, hk⟩
    exact ⟨e, ⟨he, hr⟩, hk⟩

/-- C1: with `filter_known=True`, for a trained content type and a user
present in its user map, `get_recommendations` never returns an item the user
has already interacted with: every column stored in the user's row of the
interaction matrix is masked to −∞ before ranking and masked entries are
excluded from the returned top-n list. -/
theorem getRecommendations_excludes_known
    (predict : Nat → Nat → Nat → ℚ) (st : EngineState)
    (userId ct : String) (nRecs : Nat)
    (model : Nat) (m : CooMatrix) (userMapL itemMapL : List String)
    (hmodel : st.models ct = some model)
    (humap : st.userIdMappings ct = some userMapL)
    (himap : st.itemIdMappings ct = some itemMapL)
    (hmat : st.interactionMatrices ct = some m)
    (huser : userId ∈ userMapL)
    (hnodup : itemMapL.Nodup)
    (hbound : ∀ e ∈ m.entries, e.2.1 < itemMapL.length)
    (k : Nat) (hk : k ∈ m.rowIndices (userMapL.indexOf userId)) :
    itemMapL.getD k "" ∉
      (getRecommendations predict st userId ct nRecs true).map Prod.fst := by
  intro hmem
  have hkbound : k < itemMapL.length := by
    rcases (mem_rowIndices_iff m _ k).mp hk with ⟨e, he, _, hek⟩
    exact hek ▸ hbound e he
  simp only [getRecommendations, hmodel, humap, himap, hmat, Option.getD_some,
    if_pos huser, List.map_map, List.mem_map, List.mem_filter,
    Function.comp] at hmem
  rcases hmem with ⟨idx, ⟨hidxtop, hscore⟩, heq⟩
  have hidxlt : idx < itemMapL.length :=
    mem_argsortDescend _ _ idx (List.mem_of_mem_take hidxtop)
  have hidxk : idx = k := by
    have hget : itemMapL.get ⟨idx, hidxlt⟩ = itemMapL.get ⟨k, hkbound⟩ := by
      rw [← List.getD_eq_get _ "" hidxlt, ← List.getD_eq_get _ "" hkbound]
      exact heq
    exact congrArg Fin.val ((List.Nodup.get_inj_iff hnodup).mp hget)
  subst hidxk
  rw [if_pos hk] at hscore
  exact absurd (of_decide_eq_true hscore) (lt_irrefl ⊥)

/-- A concrete trained state for content type "movie": two users, two items,
interactions (u1,i1,5), (u1,i2,3), (u2,i1,5); model handle 0. -/
def wState : EngineState :=
  ⟨fun s => if s = "movie" then some 0 else none,
   fun s => if s = "movie" then some ⟨2, 2, [(0, 0, 5), (0, 1, 3), (1, 0, 5)]⟩ else none,
   fun s => if s = "movie" then some ["u1", "u2"] else none,
   fun s => if s = "movie" then some ["i1", "i2"] else none⟩

theorem getRecommendations_excludes_known_witness :
    (wState.models "movie" = some 0 ∧
      "u1" ∈ ["u1", "u2"] ∧ (["i1", "i2"] : List String).Nodup ∧
      0 ∈ (CooMatrix.rowIndices ⟨2, 2, [(0, 0, 5), (0, 1, 3), (1, 0, 5)]⟩
        ((["u1", "u2"] : List String).indexOf "u1"))) ∧
    (["i1", "i2"] : List String).getD 0 "" ∉
      (getRecommendations (fun _ _ _ => 1) wState "u1" "movie" 10 true).map Prod.fst :=
  ⟨by decide,
    getRecommendations_excludes_known (fun _ _ _ => 1) wState "u1" "movie" 10
      0 ⟨2, 2, [(0, 0, 5), (0, 1, 3), (1, 0, 5)]⟩ ["u1", "u2"] ["i1", "i2"]
      (by decide) (by decide) (by decide) (by decide) (by decide) (by decide)
      (by decide) 0 (by decide)⟩

/-- Embedding of `RecommendationEngine.train_model`
(`ai/recommendation_engine.py`, lines 99-151) in the
`LIGHTFM_AVAILABLE = True` configuration.  `fit` is the external
`LightFM(no_components, loss).fit(matrix, ...)` call, returning the fitted
model handle; `none` models the call raising.  The source stores the new
maps and matrix *before* fitting and stores the model only after the fit
returns; the trailing `save_model` call performs disk I/O only and does not
change in-memory state. -/
def trainModel (fit : CooMatrix → Option Nat) (st : EngineState)
    (interactions : List Interaction) (ct : String) : EngineState :=
  let mb := createInteractionMatrix interactions
  if mb.matrix.nnz = 0 then st
  else
    let st1 : EngineState :=
      ⟨st.models, updateMap st.interactionMatrices ct mb.matrix,
        updateMap st.userIdMappings ct mb.userMap,
        updateMap st.itemIdMappings ct mb.itemMap⟩
    match fit mb.matrix with
    | none => st1
    | some mdl =>
      ⟨updateMap st1.models ct mdl, st1.interactionMatrices,
        st1.userIdMappings, st1.itemIdMappings⟩

/-- A prior state holding a complete old snapshot for "movie": model handle
99, a 1×1 matrix with weight 7, maps ["oldUser"] and ["oldItem"]. -/
def priorState : EngineState :=
  ⟨fun s => if s = "movie" then some 99 else none,
   fun s => if s = "movie" then some ⟨1, 1, [(0, 0, 7)]⟩ else none,
   fun s => if s = "movie" then some ["oldUser"] else none,
   fun s => if s = "movie" then some ["oldItem"] else none⟩

/-- C2 counterexample: starting from a complete old snapshot, training on
[("u1","i1",5)] with a fit call that raises leaves the user map, item map
and matrix replaced by the new run's values while the model is still the
old run's handle 99 — a mixed published state, so `train_model` is not
atomic per content type. -/
theorem trainModel_mixed_state :
    (trainModel (fun _ => none) priorState [("u1", "i1", 5)] "movie").userIdMappings "movie" = some ["u1"] ∧
    (trainModel (fun _ => none) priorState [("u1", "i1", 5)] "movie").itemIdMappings "movie" = some ["i1"] ∧
    (trainModel (fun _ => none) priorState [("u1", "i1", 5)] "movie").interactionMatrices "movie" =
      some ⟨1, 1, [(0, 0, 5)]⟩ ∧
    (trainModel (fun _ => none) priorState [("u1", "i1", 5)] "movie").models "movie" = some 99 ∧
    priorState.userIdMappings "movie" = some ["oldUser"] ∧
    priorState.models "movie" = some 99 := by decide

/-- C2 (amended): `train_model` is a no-op when the built matrix has no
stored entries, and on a successful fit it replaces all four components of
the content type's snapshot from the same run, never touching other content
types; but when the fit raises, the maps and matrix have already been
replaced while the model remains the older one — the state can be a mix. -/
theorem trainModel_characterization (fit : CooMatrix → Option Nat)
    (st : EngineState) (interactions : List Interaction) (ct : String) :
    ((createInteractionMatrix interactions).matrix.nnz = 0 →
      trainModel fit st interactions ct = st) ∧
    (∀ mdl, (createInteractionMatrix interactions).matrix.nnz ≠ 0 →
      fit (createInteractionMatrix interactions).matrix = some mdl →
      (trainModel fit st interactions ct).models ct = some mdl ∧
      (trainModel fit st interactions ct).interactionMatrices ct =
        some (createInteractionMatrix interactions).matrix ∧
      (trainModel fit st interactions ct).userIdMappings ct =
        some (createInteractionMatrix interactions).userMap ∧
      (trainModel fit st interactions ct).itemIdMappings ct =
        some (createInteractionMatrix interactions).itemMap) ∧
    ((createInteractionMatrix interactions).matrix.nnz ≠ 0 →
      fit (createInteractionMatrix interactions).matrix = none →
      (trainModel fit st interactions ct).models = st.models ∧
      (trainModel fit st interactions ct).userIdMappings ct =
        some (createInteractionMatrix interactions).userMap ∧
      (trainModel fit st interactions ct).itemIdMappings ct =
        some (createInteractionMatrix interactions).itemMap ∧
      (trainModel fit st interactions ct).interactionMatrices ct =
        some (createInteractionMatrix interactions).matrix) ∧
    (∀ ct2, ct2 ≠ ct →
      (trainModel fit st interactions ct).models ct2 = st.models ct2 ∧
      (trainModel fit st interactions ct).interactionMatrices ct2 =
        st.interactionMatrices ct2 ∧
      (trainModel fit st interactions ct).userIdMappings ct2 =
        st.userIdMappings ct2 ∧
      (trainModel fit st interactions ct).itemIdMappings ct2 =
        st.itemIdMappings ct2) := by
  refine ⟨fun h0 => ?_, fun mdl hnz hfit => ?_, fun hnz hfit => ?_,
    fun ct2 hne => ?_⟩
  · simp [trainModel, h0]
  · simp only [trainModel, hnz, if_neg hnz, hfit]
    simp [updateMap]
  · simp only [trainModel, hnz, if_neg hnz, hfit]
    simp [updateMap]
  · by_cases h0 : (createInteractionMatrix interactions).matrix.nnz = 0
    · simp [trainModel, h0]
    · cases hfit : fit (createInteractionMatrix interactions).matrix with
      | none => simp [trainModel, h0, hfit, updateMap, hne]
      | some mdl => simp [trainModel, h0, hfit, updateMap, hne]

theorem trainModel_characterization_witness :
    ((createInteractionMatrix [("u1", "i1", (5 : ℚ))]).matrix.nnz ≠ 0 ∧
      (fun _ : CooMatrix => some 1) (createInteractionMatrix [("u1", "i1", (5 : ℚ))]).matrix = some 1) ∧
    ((trainModel (fun _ => some 1) priorState [("u1", "i1", 5)] "movie").models "movie" = some 1 ∧
      (trainModel (fun _ => some 1) priorState [("u1", "i1", 5)] "movie").interactionMatrices "movie" =
        some (createInteractionMatrix [("u1", "i1", (5 : ℚ))]).matrix ∧
      (trainModel (fun _ => some 1) priorState [("u1", "i1", 5)] "movie").userIdMappings "movie" =
        some (createInteractionMatrix [("u1", "i1", (5 : ℚ))]).userMap ∧
      (trainModel (fun _ => some 1) priorState [("u1", "i1", 5)] "movie").itemIdMappings "movie" =
        some (createInteractionMatrix [("u1", "i1", (5 : ℚ))]).itemMap) :=
  ⟨⟨by decide, by decide⟩,
    (trainModel_characterization (fun _ => some 1) priorState
        [("u1", "i1", 5)] "movie").2.1 1 (by decide) (by decide)⟩

/-- Embedding of `RecommendationEngine.get_similar_items`
(`ai/recommendation_engine.py`, lines 275-329).  `sims` is the oracle for
the cosine-similarity vector computed from the external model's item
embeddings (`dot / (norms · target_norm + 1e-10)`; its values are not
rational in general, and the claim concerns only masking and selection).
The similarity of the query item is overwritten with −∞ before ranking, and
the final comprehension over the top-n indices has no filter. -/
def getSimilarItems (sims : Nat → ℚ) (st : EngineState)
    (itemId ct : String) (nSimilar : Nat) : List (String × Score) :=
  match st.models ct with
  | none => []
  | some _ =>
    let itemMap := (st.itemIdMappings ct).getD []
    if itemId ∈ itemMap then
      let itemIdx := itemMap.indexOf itemId
      let simScores : Nat → Score :=
        fun idx => if idx = itemIdx then ⊥ else ((sims idx : ℚ) : Score)
      let top := (argsortDescend simScores itemMap.length).take nSimilar
      top.map fun idx => (itemMap.getD idx "", simScores idx)
    else []

/-- A trained state for "movie" whose item map holds the two items "A","B". -/
def similarState : EngineState :=
  ⟨fun s => if s = "movie" then some 0 else none,
   fun _ => none,
   fun _ => none,
   fun s => if s = "movie" then some ["A", "B"] else none⟩

/-- C3 (code bug): with items "A","B" trained and `n = 2`,
`get_similar_items("A", "movie", 2)` returns the query item "A" itself as
its last element, carrying the −∞ mask value: the top-n comprehension lacks
the `> -inf` filter used by `get_recommendations`, so whenever `n` is at
least the number of known items the query item is included. -/
theorem getSimilarItems_includes_self :
    (getSimilarItems (fun _ => 1) similarState "A" "movie" 2).map Prod.fst =
      ["B", "A"] ∧
    (getSimilarItems (fun _ => 1) similarState "A" "movie" 2).map Prod.snd =
      [((1 : ℚ) : Score), ⊥] := by decide

/-- The outcome of the four `joblib.load` calls of `load_model`; `none`
models the read raising an exception. -/
structure LoadBlobs where
  modelBlob : Option Nat
  userMapBlob : Option (List String)
  itemMapBlob : Option (List String)
  matrixBlob : Option CooMatrix

/-- Embedding of `RecommendationEngine.load_model`
(`ai/recommendation_engine.py`, lines 354-383).  `fileExists` is
`model_path.exists()`.  The four blobs are read and assigned sequentially
inside one `try`: a failure at any point returns `False` and keeps every
assignment already made. -/
def loadModel (fileExists : Bool) (blobs : LoadBlobs) (st : EngineState)
    (ct : String) : Bool × EngineState :=
  if fileExists = false then (false, st)
  else
    match blobs.modelBlob with
    | none => (false, st)
    | some mdl =>
      let st1 : EngineState :=
        ⟨updateMap st.models ct mdl, st.interactionMatrices,
          st.userIdMappings, st.itemIdMappings⟩
      match blobs.userMapBlob with
      | none => (false, st1)
      | some um =>
        let st2 : EngineState :=
          ⟨st1.models, st1.interactionMatrices,
            updateMap st1.userIdMappings ct um, st1.itemIdMappings⟩
        match blobs.itemMapBlob with
        | none => (false, st2)
        | some im =>
          let st3 : EngineState :=
            ⟨st2.models, st2.interactionMatrices, st2.userIdMappings,
              updateMap st2.itemIdMappings ct im⟩
          match blobs.matrixBlob with
          | none => (false, st3)
          | some mx =>
            (true, ⟨st3.models, updateMap st3.interactionMatrices ct mx,
              st3.userIdMappings, st3.itemIdMappings⟩)

/-- C9 counterexample: the model blob loads (handle 7) and the user-map blob
then raises; `load_model` returns `False` but the in-memory model for the
content type has already been replaced (the prior state had handle 99), so a
load failure does not leave the state exactly as it was. -/
theorem loadModel_partial_mutation :
    (loadModel true ⟨some 7, none, none, none⟩ priorState "movie").1 = false ∧
    (loadModel true ⟨some 7, none, none, none⟩ priorState "movie").2.models "movie" = some 7 ∧
    priorState.models "movie" = some 99 := by decide

/-- C9 (amended): `load_model` returns a boolean; every failure returns
`false`.  When the model file is missing or the first blob read raises the
state is untouched, but when a later blob read raises, the components
already read stay replaced: exactly the prefix of
(model, user_map, item_map) loaded before the failure is mutated. -/
theorem loadModel_characterization (blobs : LoadBlobs) (st : EngineState)
    (ct : String) :
    (loadModel false blobs st ct = (false, st)) ∧
    (blobs.modelBlob = none → loadModel true blobs st ct = (false, st)) ∧
    (∀ mdl, blobs.modelBlob = some mdl → blobs.userMapBlob = none →
      loadModel true blobs st ct =
        (false, ⟨updateMap st.models ct mdl, st.interactionMatrices,
          st.userIdMappings, st.itemIdMappings⟩)) ∧
    (∀ mdl um, blobs.modelBlob = some mdl → blobs.userMapBlob = some um →
      blobs.itemMapBlob = none →
      loadModel true blobs st ct =
        (false, ⟨updateMap st.models ct mdl, st.interactionMatrices,
          updateMap st.userIdMappings ct um, st.itemIdMappings⟩)) ∧
    (∀ mdl um im, blobs.modelBlob = some mdl → blobs.userMapBlob = some um →
      blobs.itemMapBlob = some im → blobs.matrixBlob = none →
      loadModel true blobs st ct =
        (false, ⟨updateMap st.models ct mdl, st.interactionMatrices,
          updateMap st.userIdMappings ct um,
          updateMap st.itemIdMappings ct im⟩)) ∧
    (∀ mdl um im mx, blobs.modelBlob = some mdl → blobs.userMapBlob = some um →
      blobs.itemMapBlob = some im → blobs.matrixBlob = some mx →
      loadModel true blobs st ct =
        (true, ⟨updateMap st.models ct mdl,
          updateMap st.interactionMatrices ct mx,
          updateMap st.userIdMappings ct um,
          updateMap st.itemIdMappings ct im⟩)) := by
  refine ⟨rfl, fun h1 => ?_, fun mdl h1 h2 => ?_, fun mdl um h1 h2 h3 => ?_,
    fun mdl um im h1 h2 h3 h4 => ?_, fun mdl um im mx h1 h2 h3 h4 => ?_⟩ <;>
    simp [loadModel, h1]
  · simp [h2]
  · simp [h2, h3]
  · simp [h2, h3, h4]
  · simp [h2, h3, h4]

theorem loadModel_characterization_witness :
    ((⟨some 7, none, none, none⟩ : LoadBlobs).modelBlob = some 7 ∧
      (⟨some 7, none, none, none⟩ : LoadBlobs).userMapBlob = none) ∧
    loadModel true ⟨some 7, none, none, none⟩ priorState "movie" =
      (false, ⟨updateMap priorState.models "movie" 7,
        priorState.interactionMatrices, priorState.userIdMappings,
        priorState.itemIdMappings⟩) :=
  ⟨⟨by decide, by decide⟩,
    (loadModel_characterization ⟨some 7, none, none, none⟩ priorState
        "movie").2.2.1 7 (by decide) (by decide)⟩

/-!
Service layer (`app/services/recommendation_service.py`) and cache layer
(`app/services/recommendation_cache.py`).  The engine call made by the
service and the per-item metadata lookups of `RecommendationDataService`
are external awaits, embedded as outcome parameters: `engineResult` is
`Except.error ()` when `engine.get_recommendations` raises, and `getById`
returns `none` when the metadata lookup finds nothing (the data service
catches its own exceptions and returns `None`).  An enriched item is its
metadata payload together with the attached `recommendation_score`.
-/

/-- An enriched recommendation dictionary: metadata payload plus the
`recommendation_score` field attached by the service. -/
abbrev EnrichedItem := String × ℚ

/-- The per-item enrichment loop shared by the three service methods: items
whose metadata lookup returns nothing are silently dropped. -/
def enrich (getById : String → Option String) (recs : List (String × ℚ)) :
    List EnrichedItem :=
  recs.filterMap fun r => (getById r.1).map fun d => (d, r.2)

/-- Embedding of `RecommendationService.get_movie_recommendations`
(`app/services/recommendation_service.py`, lines 20-59), body inside the
caching decorator: on an engine exception the fallback is
`get_popular_movies`. -/
def getMovieRecommendationsBody (engineResult : Except Unit (List (String × ℚ)))
    (getById : String → Option String) (popularListing : List EnrichedItem) :
    List EnrichedItem :=
  match engineResult with
  | Except.ok recs => enrich getById recs
  | Except.error _ => popularListing

/-- Embedding of `RecommendationService.get_manga_recommendations`
(lines 61-100): on an engine exception the fallback is
`get_popular_manga`. -/
def getMangaRecommendationsBody (engineResult : Except Unit (List (String × ℚ)))
    (getById : String → Option String) (popularListing : List EnrichedItem) :
    List EnrichedItem :=
  match engineResult with
  | Except.ok recs => enrich getById recs
  | Except.error _ => popularListing

/-- Embedding of `RecommendationService.get_anime_recommendations`
(lines 102-140): the `except` branch returns the empty list (there is no
`get_popular_anime` in the repository); `popularListing` is accepted for
symmetry with the other two content types but unused. -/
def getAnimeRecommendationsBody (engineResult : Except Unit (List (String × ℚ)))
    (getById : String → Option String) (popularListing : List EnrichedItem) :
    List EnrichedItem :=
  match engineResult with
  | Except.ok recs => enrich getById recs
  | Except.error _ => []

/-- C5 counterexample: with the engine raising and a non-empty popularity
listing available, `get_anime_recommendations` returns the empty list, not
the popularity listing — the claimed fallback fails for the anime content
type. -/
theorem getAnimeRecommendations_fallback_empty :
    getAnimeRecommendationsBody (Except.error ()) (fun _ => none)
        [("popularAnime", 9)] = [] ∧
    ([("popularAnime", 9)] : List EnrichedItem) ≠ [] := by decide

/-- C5 (amended): when the engine call raises, `get_movie_recommendations`
and `get_manga_recommendations` return the popularity listing for their
content type, bypassing the engine; `get_anime_recommendations` instead
returns the empty list. -/
theorem engineFailure_fallback (getById : String → Option String)
    (popularListing : List EnrichedItem) :
    getMovieRecommendationsBody (Except.error ()) getById popularListing =
      popularListing ∧
    getMangaRecommendationsBody (Except.error ()) getById popularListing =
      popularListing ∧
    getAnimeRecommendationsBody (Except.error ()) getById popularListing =
      [] :=
  ⟨rfl, rfl, rfl⟩

/-- The in-process memory cache of `RecommendationCache`
(`self.memory_cache`), a dictionary embedded as an association list in
insertion order. -/
structure CacheState where
  memoryCache : List (String × List EnrichedItem)
deriving DecidableEq

/-- Dictionary lookup `d.get(key)`. -/
def lookupKey (key : String) : List (String × List EnrichedItem) →
    Option (List EnrichedItem)
  | [] => none
  | kv :: rest => if kv.1 = key then some kv.2 else lookupKey key rest

/-- Dictionary store `d[key] = v`. -/
def setKey (key : String) (v : List EnrichedItem) :
    List (String × List EnrichedItem) → List (String × List EnrichedItem)
  | [] => [(key, v)]
  | kv :: rest => if kv.1 = key then (key, v) :: rest else kv :: setKey key v rest

/-- Embedding of `RecommendationCache._make_key`
(`app/services/recommendation_cache.py`, lines 44-58): the namespaced key
`rec:{content_type}:{user_id}:{hash}`.  `hashFn` stands for the
`hashlib.md5(...).hexdigest()` of the key data, an arbitrary fixed function
of `"{user_id}:{content_type}:{n}"`. -/
def makeKey (hashFn : String → String) (userId contentType : String)
    (n : Nat) : String :=
  "rec:" ++ contentType ++ ":" ++ userId ++ ":" ++
    hashFn (userId ++ ":" ++ contentType ++ ":" ++ toString n)

/-- Embedding of `RecommendationCache.get` restricted to the in-memory tier (the Django
tier is an external backend; with it unavailable the source falls through to
`self.memory_cache.get(key)`). -/
def cacheGet (st : CacheState) (key : String) : Option (List EnrichedItem) :=
  lookupKey key st.memoryCache

/-- Embedding of `RecommendationCache.set` on the in-memory tier. -/
def cacheSet (st : CacheState) (key : String) (v : List EnrichedItem) :
    CacheState :=
  ⟨setKey key v st.memoryCache⟩

/-- Python's substring test `needle in hay` on strings. -/
def strContains (needle hay : String) : Prop :=
  needle.toList <:+: hay.toList

instance (needle hay : String) : Decidable (strContains needle hay) :=
  inferInstanceAs (Decidable (needle.toList <:+: hay.toList))

/-- Embedding of `RecommendationCache.invalidate` (lines 122-150) on the
local tier.  The source computes a `pattern` from `content_type` but never
applies it to the memory cache: the deletion loop removes every entry whose
key contains `user_id` as a substring (`user_id in k`), regardless of
content type. -/
def invalidate (st : CacheState) (userId : String)
    (contentType : Option String) : CacheState :=
  ⟨st.memoryCache.filter fun kv => ¬ strContains userId kv.1⟩

/-- The result of one service call together with the number of engine calls
and metadata-repository calls it performed. -/
structure CallResult where
  result : List EnrichedItem
  engineCalls : Nat
  metadataCalls : Nat
deriving DecidableEq

/-- Embedding of the `cached_recommendation` decorator
(`app/services/recommendation_cache.py`, lines 179-224) around a service
body for a known content type: on a cache hit the cached list is returned
with no body invocation (zero engine and metadata calls); on a miss the body
runs and its result is cached unconditionally. -/
def cachedRecommendation (hashFn : String → String) (contentType : String)
    (body : Unit → CallResult) (st : CacheState) (userId : String) (n : Nat) :
    CallResult × CacheState :=
  match cacheGet st (makeKey hashFn userId contentType n) with
  | some cached => (⟨cached, 0, 0⟩, st)
  | none =>
    let r := body ()
    (r, cacheSet st (makeKey hashFn userId contentType n) r.result)

theorem lookupKey_setKey_self (key : String) (v : List EnrichedItem) :
    ∀ l, lookupKey key (setKey key v l) = some v := by
  intro l
  induction l with
  | nil => simp [setKey, lookupKey]
  | cons kv rest ih =>
    by_cases h : kv.1 = key
    · simp [setKey, h, lookupKey]
    · simp [setKey, h, lookupKey, ih]

/-- C6: cache idempotence.  Two identical consecutive calls through the
caching decorator return identical lists; the second call performs zero
engine calls and zero metadata-repository calls and leaves the cache
unchanged. -/
theorem cachedRecommendation_idempotent (hashFn : String → String)
    (contentType : String) (body : Unit → CallResult) (st : CacheState)
    (userId : String) (n : Nat) :
    (cachedRecommendation hashFn contentType body
        (cachedRecommendation hashFn contentType body st userId n).2
        userId n).1.result =
      (cachedRecommendation hashFn contentType body st userId n).1.result ∧
    (cachedRecommendation hashFn contentType body
        (cachedRecommendation hashFn contentType body st userId n).2
        userId n).1.engineCalls = 0 ∧
    (cachedRecommendation hashFn contentType body
        (cachedRecommendation hashFn contentType body st userId n).2
        userId n).1.metadataCalls = 0 ∧
    (cachedRecommendation hashFn contentType body
        (cachedRecommendation hashFn contentType body st userId n).2
        userId n).2 =
      (cachedRecommendation hashFn contentType body st userId n).2 := by
  cases h : cacheGet st (makeKey hashFn userId contentType n) with
  | some cached =>
    simp [cachedRecommendation, h]
  | none =>
    have hset : cacheGet
        (cacheSet st (makeKey hashFn userId contentType n) (body ()).result)
        (makeKey hashFn userId contentType n) = some (body ()).result :=
      lookupKey_setKey_self _ _ _
    simp [cachedRecommendation, h, hset]

theorem lookupKey_invalidate (uid k : String) :
    ∀ l : List (String × List EnrichedItem),
      lookupKey k (l.filter fun kv => ¬ strContains uid kv.1) =
        if strContains uid k then none else lookupKey k l := by
  intro l
  induction l with
  | nil =>
    simp only [List.filter_nil, lookupKey]
    split <;> rfl
  | cons kv rest ih =>
    simp only [decide_not] at ih
    by_cases hsub : strContains uid kv.1 <;> by_cases hk : kv.1 = k
    · have hks : strContains uid k := hk ▸ hsub
      simp [List.filter_cons, hsub, hk, lookupKey, ih, hks]
    · simp [List.filter_cons, hsub, hk, lookupKey, ih]
    · have hks : ¬ strContains uid k := hk ▸ hsub
      simp [List.filter_cons, hsub, hk, lookupKey, hks]
    · simp [List.filter_cons, hsub, hk, lookupKey, ih]

/-- C7 (amended): on the local cache, `invalidate(user_id, content_type)`
removes exactly the entries whose key contains `user_id` as a substring; the
`content_type` argument has no effect on the local removal (the computed
pattern is never applied), so entries of the same user for other content
types are removed as well. -/
theorem invalidate_removes_by_substring (st : CacheState) (userId : String)
    (contentType : Option String) (k : String) :
    cacheGet (invalidate st userId contentType) k =
      if strContains userId k then none else cacheGet st k :=
  lookupKey_invalidate userId k st.memoryCache

/-- A local cache holding one movie entry and one manga entry for user "u1"
(hash function taken as the identity). -/
def cacheBefore : CacheState :=
  ⟨[(makeKey id "u1" "movie" 10, [("m", 1)]),
    (makeKey id "u1" "manga" 10, [("g", 2)])]⟩

/-- C7 counterexample: invalidating user "u1" scoped to content type
"movie" also removes the user's "manga" entry from the local cache — the
content-type scoping the claim describes does not happen. -/
theorem invalidate_not_scoped_by_content_type :
    cacheGet cacheBefore (makeKey id "u1" "manga" 10) = some [("g", 2)] ∧
    cacheGet (invalidate cacheBefore "u1" (some "movie"))
      (makeKey id "u1" "manga" 10) = none := by decide

/-- C10: the caching wrapper stores whatever list the service body returns
— including the popularity fallback of the movie path and the empty list of
the anime path produced when the engine raises — under the key for
(user_id, content_type, n); a subsequent identical call is served that
stored list from the cache with zero engine and metadata calls. -/
theorem cachedRecommendation_caches_failure_path
    (hashFn : String → String) (getById : String → Option String)
    (popularListing : List EnrichedItem) (st : CacheState) (userId : String)
    (n : Nat)
    (hmissMovie : cacheGet st (makeKey hashFn userId "movie" n) = none)
    (hmissAnime : cacheGet st (makeKey hashFn userId "anime" n) = none) :
    (cacheGet (cachedRecommendation hashFn "movie"
        (fun _ => ⟨getMovieRecommendationsBody (Except.error ()) getById
          popularListing, 1, 0⟩) st userId n).2
        (makeKey hashFn userId "movie" n) = some popularListing) ∧
    ((cachedRecommendation hashFn "movie"
        (fun _ => ⟨getMovieRecommendationsBody (Except.error ()) getById
          popularListing, 1, 0⟩)
        (cachedRecommendation hashFn "movie"
          (fun _ => ⟨getMovieRecommendationsBody (Except.error ()) getById
            popularListing, 1, 0⟩) st userId n).2
        userId n).1 = ⟨popularListing, 0, 0⟩) ∧
    (cacheGet (cachedRecommendation hashFn "anime"
        (fun _ => ⟨getAnimeRecommendationsBody (Except.error ()) getById
          popularListing, 1, 0⟩) st userId n).2
        (makeKey hashFn userId "anime" n) = some []) ∧
    ((cachedRecommendation hashFn "anime"
        (fun _ => ⟨getAnimeRecommendationsBody (Except.error ()) getById
          popularListing, 1, 0⟩)
        (cachedRecommendation hashFn "anime"
          (fun _ => ⟨getAnimeRecommendationsBody (Except.error ()) getById
            popularListing, 1, 0⟩) st userId n).2
        userId n).1 = ⟨[], 0, 0⟩) := by
  have hsetM : cacheGet
      (cacheSet st (makeKey hashFn userId "movie" n) popularListing)
      (makeKey hashFn userId "movie" n) = some popularListing :=
    lookupKey_setKey_self _ _ _
  have hsetA : cacheGet
      (cacheSet st (makeKey hashFn userId "anime" n) [])
      (makeKey hashFn userId "anime" n) = some ([] : List EnrichedItem) :=
    lookupKey_setKey_self _ _ _
  refine ⟨?_, ?_, ?_, ?_⟩ <;>
    simp [cachedRecommendation, hmissMovie, hmissAnime,
      getMovieRecommendationsBody, getAnimeRecommendationsBody, hsetM, hsetA]

theorem cachedRecommendation_caches_failure_path_witness :
    (cacheGet ⟨[]⟩ (makeKey id "u1" "movie" 10) = none ∧
      cacheGet ⟨[]⟩ (makeKey id "u1" "anime" 10) = none) ∧
    (cacheGet (cachedRecommendation id "movie"
        (fun _ => ⟨getMovieRecommendationsBody (Except.error ())
          (fun _ => none) [("p", 1)], 1, 0⟩) ⟨[]⟩ "u1" 10).2
        (makeKey id "u1" "movie" 10) = some [("p", 1)]) :=
  ⟨⟨by decide, by decide⟩,
    (cachedRecommendation_caches_failure_path id (fun _ => none) [("p", 1)]
      ⟨[]⟩ "u1" 10 (by decide) (by decide)).1⟩

end Musicbud
